import Mathlib

/-!
Shallow embedding of the GreenCart logistics simulation engine
(`backend/src/services/simulationEngine.ts`) together with the data model it
operates on (`models/Driver.ts`, `models/Route.ts`, `models/Order.ts`).

Numbers are modelled by `ℚ` (the source uses JS numbers for currency, hours
and minutes), `Math.round` by `jsRound` (floor of `x + 1/2`, which is JS
round-half-toward-positive-infinity), and `Math.random()` by an explicit
stream `rng : ℕ → ℚ` of draws, consumed one draw per produced assignment.
JavaScript `Array.prototype.sort` with a consistent comparator is stable, so
both sorts of the engine are embedded as Mathlib's stable `insertionSort`
with the preorder induced by the comparator.
-/

namespace GreenCart

/-- Traffic level of a route (`models/Route.ts`). -/
inductive TrafficLevel
  | Low
  | Medium
  | High
deriving DecidableEq

/-- Order status (`models/Order.ts`): 'Pending' | 'In Progress' | 'Delivered' | 'Late'. -/
inductive OrderStatus
  | Pending
  | InProgress
  | Delivered
  | Late
deriving DecidableEq

/-- A route (`models/Route.ts`): distance, traffic level, base delivery time. -/
structure Route where
  id : Nat
  distanceKm : ℚ
  trafficLevel : TrafficLevel
  baseTimeMinutes : ℚ
deriving DecidableEq

/-- A driver (`models/Driver.ts`): current shift hours and past week hours. -/
structure Driver where
  id : Nat
  currentShiftHours : ℚ
  pastWeekHours : ℚ
deriving DecidableEq

/-- An order (`models/Order.ts`), with its populated route (`.populate('routeId')`). -/
structure Order where
  id : Nat
  valueRs : ℚ
  route : Route
  status : OrderStatus
deriving DecidableEq

/-- `SimulationParams` from `simulationEngine.ts`. -/
structure SimulationParams where
  numberOfDrivers : Nat
  routeStartTime : String
  maxHoursPerDriver : ℚ

/-- `DeliveryAssignment` from `simulationEngine.ts`. `actualDeliveryTime` is an
integer because `simulateActualDeliveryTime` ends in `Math.round`. -/
structure DeliveryAssignment where
  orderId : Nat
  driverId : Nat
  routeId : Nat
  estimatedDeliveryTime : ℚ
  actualDeliveryTime : ℤ
  isOnTime : Bool
  orderValue : ℚ
  fuelCost : ℚ
  bonus : ℚ
  penalty : ℚ
deriving DecidableEq

/-- `fuelCostBreakdown` component of `SimulationResult`. -/
structure FuelCostBreakdown where
  baseCost : ℚ
  trafficSurcharge : ℚ
  total : ℚ
deriving DecidableEq

/-- `SimulationResult` from `simulationEngine.ts`. -/
structure SimulationResult where
  totalProfit : ℚ
  efficiencyScore : ℚ
  onTimeDeliveries : Nat
  lateDeliveries : Nat
  fuelCostBreakdown : FuelCostBreakdown
deriving DecidableEq

/-- The only failure `runSimulation` raises itself: the `Insufficient data for
simulation` error thrown when a required pool is empty. -/
inductive SimError
  | insufficientData
deriving DecidableEq

/-- JS `Math.round`: round half toward positive infinity. -/
def jsRound (q : ℚ) : ℤ := ⌊q + 1/2⌋

/-- `Math.round(x * 100) / 100`: round to 2 decimal places. -/
def round2 (q : ℚ) : ℚ := (jsRound (q * 100) : ℚ) / 100

/-- `Math.round(x * 10) / 10`: round to 1 decimal place. -/
def round1 (q : ℚ) : ℚ := (jsRound (q * 10) : ℚ) / 10

/-- The preorder induced by the order comparator
`(a, b) => b.valueRs - a.valueRs`: `a` may come before `b` iff
`b.valueRs ≤ a.valueRs` (descending by value). -/
def ordValueGE (a b : Order) : Prop := b.valueRs ≤ a.valueRs

instance : DecidableRel ordValueGE := fun a b =>
  inferInstanceAs (Decidable (b.valueRs ≤ a.valueRs))

instance : IsTotal Order ordValueGE := ⟨fun a b => le_total b.valueRs a.valueRs⟩

instance : IsTrans Order ordValueGE := ⟨fun _ _ _ h1 h2 => le_trans h2 h1⟩

/-- The preorder induced by the driver comparator
`(a, b) => driverWorkload[a._id] - driverWorkload[b._id]` for a given
workload table `wl` (ascending by accumulated workload). -/
def driverLE (wl : Nat → ℚ) (a b : Driver) : Prop := wl a.id ≤ wl b.id

instance (wl : Nat → ℚ) : DecidableRel (driverLE wl) := fun a b =>
  inferInstanceAs (Decidable (wl a.id ≤ wl b.id))

instance (wl : Nat → ℚ) : IsTotal Driver (driverLE wl) := ⟨fun a b => le_total _ _⟩

instance (wl : Nat → ℚ) : IsTrans Driver (driverLE wl) :=
  ⟨fun _ _ _ h1 h2 => le_trans h1 h2⟩

/-- Status filter of the order fetch in `runSimulation`:
`Order.find({ status: { $in: ['Pending', 'In Progress'] } })`. -/
def isEligibleStatus (s : OrderStatus) : Bool :=
  decide (s = OrderStatus.Pending ∨ s = OrderStatus.InProgress)

/-- The eligible order pool: orders whose status passes the fetch filter. -/
def filterEligible (orders : List Order) : List Order :=
  orders.filter fun o => isEligibleStatus o.status

/-- Lines 68-70: the `driverWorkload` map after initialization from
`driver.currentShiftHours` (later duplicate ids overwrite earlier ones,
as JS object assignment does). Keys never written are irrelevant: the engine
only reads keys of drivers in the pool. -/
def initialWorkload (drivers : List Driver) : Nat → ℚ :=
  drivers.foldl (fun m d => fun i => if i = d.id then d.currentShiftHours else m i)
    (fun _ => 0)

/-- Lines 77-79: `drivers.filter(workload < max).sort(by workload)[0]` —
eligible drivers, stably sorted ascending by current workload, first one
(`none` when the filtered array is empty, i.e. `[0]` is `undefined`). -/
def pickDriver (wl : Nat → ℚ) (maxHoursPerDriver : ℚ) (drivers : List Driver) :
    Option Driver :=
  ((drivers.filter fun d => decide (wl d.id < maxHoursPerDriver)).insertionSort
    (driverLE wl)).head?

/-- Lines 90-106: base time, times 1.3 when `pastWeekHours > 8 * 7`, times the
traffic factor (High 1.5, Medium 1.2, Low unchanged). -/
def estimatedDeliveryTimeFor (availableDriver : Driver) (route : Route) : ℚ :=
  let baseDeliveryTime := route.baseTimeMinutes
  let baseDeliveryTime :=
    if 8 * 7 < availableDriver.pastWeekHours then baseDeliveryTime * (13/10)
    else baseDeliveryTime
  match route.trafficLevel with
  | TrafficLevel.High => baseDeliveryTime * (15/10)
  | TrafficLevel.Medium => baseDeliveryTime * (12/10)
  | TrafficLevel.Low => baseDeliveryTime

/-- Lines 141-146: `Math.round(estimatedTime * (1 + (Math.random() - 0.5) * 0.2))`,
with the `Math.random()` draw passed in explicitly. -/
def simulateActualDeliveryTime (randomValue : ℚ) (estimatedTime : ℚ) : ℤ :=
  let variation : ℚ := 2/10
  let randomFactor := 1 + (randomValue - 1/2) * variation
  jsRound (estimatedTime * randomFactor)

/-- Lines 148-152: `distanceKm * 5`, plus `distanceKm * 2` surcharge for High
traffic only. -/
def calculateFuelCost (route : Route) : ℚ :=
  let baseCost := route.distanceKm * 5
  let trafficSurcharge :=
    if route.trafficLevel = TrafficLevel.High then route.distanceKm * 2 else 0
  baseCost + trafficSurcharge

/-- Lines 154-160: 10% bonus iff `orderValue > 1000` and on time. -/
def calculateBonus (orderValue : ℚ) (isOnTime : Bool) : ℚ :=
  if 1000 < orderValue ∧ isOnTime = true then orderValue * (1/10) else 0

/-- Lines 86-130: the assignment built for an order once a driver is available,
given the `Math.random()` draw used by `simulateActualDeliveryTime`. -/
def buildAssignment (availableDriver : Driver) (order : Order) (randomValue : ℚ) :
    DeliveryAssignment :=
  let route := order.route
  let estimatedTime := estimatedDeliveryTimeFor availableDriver route
  let actualTime := simulateActualDeliveryTime randomValue estimatedTime
  let isOnTime := decide ((actualTime : ℚ) ≤ route.baseTimeMinutes + 10)
  let fuelCost := calculateFuelCost route
  let penalty : ℚ := if isOnTime then 0 else 50
  let bonus := calculateBonus order.valueRs isOnTime
  { orderId := order.id
    driverId := availableDriver.id
    routeId := route.id
    estimatedDeliveryTime := estimatedTime
    actualDeliveryTime := actualTime
    isOnTime := isOnTime
    orderValue := order.valueRs
    fuelCost := fuelCost
    bonus := bonus
    penalty := penalty }

/-- Mutable state of the `sortedOrders.forEach` loop: the assignments pushed so
far and the `driverWorkload` table. The number of assignments so far is also
the number of `Math.random()` draws consumed so far. -/
structure AssignState where
  assignments : List DeliveryAssignment
  driverWorkload : Nat → ℚ

/-- One iteration of the loop (lines 75-136): pick the least-loaded eligible
driver; if none, skip the order; otherwise push the assignment and add
`actualTime / 60` hours to the chosen driver's workload. -/
def processOrder (drivers : List Driver) (params : SimulationParams)
    (rng : ℕ → ℚ) (st : AssignState) (order : Order) : AssignState :=
  match pickDriver st.driverWorkload params.maxHoursPerDriver drivers with
  | none => st
  | some availableDriver =>
      let a := buildAssignment availableDriver order (rng st.assignments.length)
      { assignments := st.assignments ++ [a]
        driverWorkload := fun i =>
          if i = availableDriver.id then
            st.driverWorkload i + (a.actualDeliveryTime : ℚ) / 60
          else st.driverWorkload i }

/-- The loop of `assignDeliveries` run to completion: orders stably sorted
descending by `valueRs` (line 73), then folded through `processOrder`. -/
def assignFold (drivers : List Driver) (orders : List Order)
    (params : SimulationParams) (rng : ℕ → ℚ) : AssignState :=
  (orders.insertionSort ordValueGE).foldl (processOrder drivers params rng)
    { assignments := [], driverWorkload := initialWorkload drivers }

/-- `assignDeliveries` (lines 63-139): the produced list of assignments. -/
def assignDeliveries (drivers : List Driver) (orders : List Order)
    (params : SimulationParams) (rng : ℕ → ℚ) : List DeliveryAssignment :=
  (assignFold drivers orders params rng).assignments

/-- Accumulator of the `assignments.forEach` loop in `calculateResults`. -/
structure ResultAcc where
  totalProfit : ℚ
  onTimeDeliveries : Nat
  lateDeliveries : Nat
  totalBaseFuelCost : ℚ
  totalTrafficSurcharge : ℚ

/-- One iteration of the `calculateResults` loop (lines 169-185). -/
def resultStep (acc : ResultAcc) (a : DeliveryAssignment) : ResultAcc :=
  { totalProfit := acc.totalProfit + (a.orderValue + a.bonus - a.penalty - a.fuelCost)
    onTimeDeliveries :=
      if a.isOnTime then acc.onTimeDeliveries + 1 else acc.onTimeDeliveries
    lateDeliveries :=
      if a.isOnTime then acc.lateDeliveries else acc.lateDeliveries + 1
    totalBaseFuelCost := acc.totalBaseFuelCost + a.fuelCost * (7/10)
    totalTrafficSurcharge := acc.totalTrafficSurcharge + a.fuelCost * (3/10) }

/-- `calculateResults` (lines 162-201). -/
def calculateResults (assignments : List DeliveryAssignment) : SimulationResult :=
  let acc := assignments.foldl resultStep ⟨0, 0, 0, 0, 0⟩
  let totalDeliveries := acc.onTimeDeliveries + acc.lateDeliveries
  let efficiencyScore : ℚ :=
    if 0 < totalDeliveries then
      ((acc.onTimeDeliveries : ℚ) / (totalDeliveries : ℚ)) * 100
    else 0
  { totalProfit := round2 acc.totalProfit
    efficiencyScore := round1 efficiencyScore
    onTimeDeliveries := acc.onTimeDeliveries
    lateDeliveries := acc.lateDeliveries
    fuelCostBreakdown :=
      { baseCost := round2 acc.totalBaseFuelCost
        trafficSurcharge := round2 acc.totalTrafficSurcharge
        total := round2 (acc.totalBaseFuelCost + acc.totalTrafficSurcharge) } }

/-- `runSimulation` (lines 38-61). `drivers` is the pool returned by
`Driver.find().limit(numberOfDrivers)`, `routes` the full route catalog and
`orders` the order collection, filtered by status here as the fetch query
does. Empty drivers, routes or eligible orders throw the insufficient-data
error; otherwise the result of `calculateResults` on the assignments. -/
def runSimulation (drivers : List Driver) (routes : List Route)
    (orders : List Order) (params : SimulationParams) (rng : ℕ → ℚ) :
    Except SimError SimulationResult :=
  if drivers.length = 0 ∨ routes.length = 0 ∨ (filterEligible orders).length = 0 then
    Except.error SimError.insufficientData
  else
    Except.ok
      (calculateResults (assignDeliveries drivers (filterEligible orders) params rng))

/-!
## Concrete sample data

Small concrete instances used to evaluate the engine on closed inputs: a
fatigued driver on a High-traffic route (the spec's own worked example), the
two-driver scenario showing that random actual times feed back into driver
selection, and a short route showing the workload cap is only checked before
assignment.
-/

/-- High-traffic route, 10 km, 40 base minutes (the spec's worked example). -/
def sampleRoute : Route := ⟨1, 10, TrafficLevel.High, 40⟩

/-- Fatigued driver: 60 past-week hours (> 56), fresh shift. -/
def sampleDriver : Driver := ⟨1, 0, 60⟩

/-- A pending high-value order on the sample route. -/
def sampleOrder : Order := ⟨1, 1200, sampleRoute, OrderStatus.Pending⟩

/-- Params with a 12-hour driver cap. -/
def sampleParams : SimulationParams := ⟨1, "09:00", 12⟩

/-- A random stream alway returning 1/2, i.e. variance factor exactly 1. -/
def sampleRng : ℕ → ℚ := fun _ => 1/2

/-- Low-traffic route with 30 base minutes. -/
def cexRoute : Route := ⟨1, 1, TrafficLevel.Low, 30⟩

/-- Driver starting with an empty shift. -/
def cexDriver1 : Driver := ⟨1, 0, 0⟩

/-- Driver starting with half an hour on the shift. -/
def cexDriver2 : Driver := ⟨2, 1/2, 0⟩

/-- Higher-value order, assigned first. -/
def cexOrder1 : Order := ⟨1, 200, cexRoute, OrderStatus.Pending⟩

/-- Lower-value order, assigned second. -/
def cexOrder2 : Order := ⟨2, 100, cexRoute, OrderStatus.Pending⟩

/-- Params with a generous 100-hour cap: every driver is always eligible. -/
def cexParams : SimulationParams := ⟨2, "09:00", 100⟩

/-- Low-traffic route taking a full hour. -/
def softCapRoute : Route := ⟨1, 1, TrafficLevel.Low, 60⟩

/-- Driver with 0.9 hours on the shift, just under the 1-hour cap. -/
def softCapDriver : Driver := ⟨1, 9/10, 0⟩

/-- A pending order on the hour-long route. -/
def softCapOrder : Order := ⟨1, 100, softCapRoute, OrderStatus.Pending⟩

/-- Params with a 1-hour driver cap. -/
def softCapParams : SimulationParams := ⟨1, "09:00", 1⟩

/-!
## Generic lemmas about the stable insertion sort

JavaScript's `Array.prototype.sort` with a consistent comparator is a stable
sort, which is exactly `List.insertionSort` with the preorder induced by the
comparator. The lemmas here extract sortedness, stability (elements with
equal keys keep their input order) and the characterization of the first
element as the stably-first minimum.
-/

/-- Stability of `insertionSort`: filtering by a predicate that only holds on
pairwise-related elements (e.g. elements of one fixed key) commutes with
sorting, i.e. the relative input order of such elements survives the sort. -/
theorem filter_insertionSort_stable {α : Type*} (r : α → α → Prop) [DecidableRel r]
    [IsTotal α r] [IsTrans α r] (p : α → Bool)
    (hp : ∀ a b, p a = true → p b = true → r a b) (l : List α) :
    (l.insertionSort r).filter p = l.filter p := by
  have hpw : (l.filter p).Pairwise r := by
    rw [List.pairwise_iff_forall_sublist]
    intro a b hab
    have ha : a ∈ l.filter p := hab.subset (List.mem_cons_self a _)
    have hb : b ∈ l.filter p := hab.subset (by simp)
    exact hp a b (List.mem_filter.mp ha).2 (List.mem_filter.mp hb).2
  have h1 : (l.filter p).Sublist (l.insertionSort r) :=
    List.sublist_insertionSort hpw (List.filter_sublist l)
  have h2 : (l.filter p).Sublist ((l.insertionSort r).filter p) := by
    have h3 := List.Sublist.filter p h1
    rwa [List.filter_eq_self.mpr (fun a ha => (List.mem_filter.mp ha).2)] at h3
  have hlen : ((l.insertionSort r).filter p).length = (l.filter p).length :=
    ((List.perm_insertionSort r l).filter p).length_eq
  exact (h2.eq_of_length hlen.symm).symm

/-- The head of a stable sort by a rational key is the first element of the
input attaining the minimal key: it belongs to the input, its key is minimal,
and every element strictly before it in the input has a strictly larger key. -/
theorem head_insertionSort_spec {α : Type*} (r : α → α → Prop) [DecidableRel r]
    [IsTotal α r] [IsTrans α r] (key : α → ℚ)
    (hkey : ∀ a b, r a b ↔ key a ≤ key b) (l : List α) (d : α)
    (h : (l.insertionSort r).head? = some d) :
    d ∈ l ∧ (∀ x ∈ l, key d ≤ key x) ∧
      ∃ pre post, l = pre ++ d :: post ∧ ∀ x ∈ pre, key d < key x := by
  obtain ⟨rest, hs⟩ : ∃ rest, l.insertionSort r = d :: rest := by
    cases hsort : l.insertionSort r with
    | nil => rw [hsort] at h; exact absurd h (by simp)
    | cons a t =>
        rw [hsort] at h
        simp only [List.head?_cons, Option.some.injEq] at h
        exact ⟨t, by rw [h]⟩
  have hperm := List.perm_insertionSort r l
  have hmem : d ∈ l := hperm.mem_iff.mp (hs ▸ List.mem_cons_self d rest)
  have hsorted := List.sorted_insertionSort r l
  rw [hs] at hsorted
  have hmin : ∀ x ∈ l, key d ≤ key x := by
    intro x hx
    have hx2 : x ∈ d :: rest := by rw [← hs]; exact hperm.mem_iff.mpr hx
    cases List.mem_cons.mp hx2 with
    | inl he => rw [he]
    | inr hr => exact (hkey d x).mp (List.rel_of_sorted_cons hsorted x hr)
  refine ⟨hmem, hmin, ?_⟩
  have hfe : (l.insertionSort r).filter (fun x => decide (key x = key d)) =
      l.filter (fun x => decide (key x = key d)) := by
    refine filter_insertionSort_stable r _ ?_ l
    intro a b ha hb
    rw [hkey]
    simp only [decide_eq_true_eq] at ha hb
    rw [ha, hb]
  have hcons : l.filter (fun x => decide (key x = key d)) =
      d :: rest.filter (fun x => decide (key x = key d)) := by
    rw [← hfe, hs, List.filter_cons_of_pos (by simp)]
  obtain ⟨l₁, l₂, hsplit, hnp, -, -⟩ := List.filter_eq_cons_iff.mp hcons
  refine ⟨l₁, l₂, hsplit, ?_⟩
  intro x hx
  have hxl : x ∈ l := by rw [hsplit]; exact List.mem_append.mpr (Or.inl hx)
  have hne : ¬ key x = key d := by simpa using hnp x hx
  exact lt_of_le_of_ne (hmin x hxl) (fun he => hne he.symm)

/-- The stable sort is empty exactly when its input is. -/
theorem insertionSort_eq_nil_iff {α : Type*} (r : α → α → Prop) [DecidableRel r]
    (l : List α) : l.insertionSort r = [] ↔ l = [] := by
  constructor
  · intro h
    have hlen := List.length_insertionSort r l
    rw [h] at hlen
    exact List.length_eq_zero.mp hlen.symm
  · intro h; rw [h]; rfl

/-!
## Characterization of the driver pick (lines 77-84)
-/

/-- When `pickDriver` returns a driver, that driver is in the pool, is
eligible (workload strictly below the cap), has minimal workload among all
eligible drivers, and every driver listed before it in the pool that is
eligible has a strictly larger workload (the stable tie-break). -/
theorem pickDriver_some_spec (wl : Nat → ℚ) (maxH : ℚ) (drivers : List Driver)
    (d : Driver) (h : pickDriver wl maxH drivers = some d) :
    d ∈ drivers ∧ wl d.id < maxH ∧
      (∀ x ∈ drivers, wl x.id < maxH → wl d.id ≤ wl x.id) ∧
      ∃ pre post, drivers = pre ++ d :: post ∧
        ∀ x ∈ pre, wl x.id < maxH → wl d.id < wl x.id := by
  obtain ⟨hmemf, hmin, pre, post, hsplit, hpre⟩ :=
    head_insertionSort_spec (driverLE wl) (fun x => wl x.id)
      (fun a b => Iff.rfl) (drivers.filter fun x => decide (wl x.id < maxH)) d h
  obtain ⟨hdmem, hdelig⟩ := List.mem_filter.mp hmemf
  have hdlt : wl d.id < maxH := of_decide_eq_true hdelig
  have hminall : ∀ x ∈ drivers, wl x.id < maxH → wl d.id ≤ wl x.id := by
    intro x hx hxlt
    exact hmin x (List.mem_filter.mpr ⟨hx, decide_eq_true hxlt⟩)
  refine ⟨hdmem, hdlt, hminall, ?_⟩
  have hq1 : (drivers.filter fun x => decide (wl x.id < maxH)).filter
        (fun x => decide (wl x.id < maxH ∧ wl x.id ≤ wl d.id)) =
      drivers.filter (fun x => decide (wl x.id < maxH ∧ wl x.id ≤ wl d.id)) := by
    rw [List.filter_filter]
    refine List.filter_congr ?_
    intro x _
    by_cases hx : wl x.id < maxH ∧ wl x.id ≤ wl d.id
    · simp [hx, hx.1]
    · simp only [decide_eq_false hx, Bool.false_and]
  have hq2 : drivers.filter (fun x => decide (wl x.id < maxH ∧ wl x.id ≤ wl d.id)) =
      d :: post.filter (fun x => decide (wl x.id < maxH ∧ wl x.id ≤ wl d.id)) := by
    rw [← hq1, hsplit, List.filter_append]
    have h1 : pre.filter (fun x => decide (wl x.id < maxH ∧ wl x.id ≤ wl d.id)) = [] :=
      List.filter_eq_nil_iff.mpr (fun x hx hpx =>
        absurd (of_decide_eq_true hpx).2 (not_le.mpr (hpre x hx)))
    rw [h1, List.nil_append, List.filter_cons, if_pos (by simp [hdlt])]
  obtain ⟨l₁, l₂, hsp2, hnq, -, -⟩ := List.filter_eq_cons_iff.mp hq2
  refine ⟨l₁, l₂, hsp2, ?_⟩
  intro x hx hxlt
  have hnq2 := hnq x hx
  rw [decide_eq_true_eq] at hnq2
  push_neg at hnq2
  exact hnq2 hxlt

/-- `pickDriver` comes up empty exactly when no driver in the pool has
workload strictly below the cap. -/
theorem pickDriver_none_iff (wl : Nat → ℚ) (maxH : ℚ) (drivers : List Driver) :
    pickDriver wl maxH drivers = none ↔ ∀ x ∈ drivers, maxH ≤ wl x.id := by
  unfold pickDriver
  rw [List.head?_eq_none_iff, insertionSort_eq_nil_iff, List.filter_eq_nil_iff]
  simp [not_lt]

/-!
## Loop invariants of `assignDeliveries`
-/

/-- One loop step either leaves the state untouched (no eligible driver: the
order is skipped, no error) or appends exactly one assignment built by
`buildAssignment` from the picked driver and the next random draw. -/
theorem processOrder_cases (drivers : List Driver) (params : SimulationParams)
    (rng : ℕ → ℚ) (st : AssignState) (o : Order) :
    (pickDriver st.driverWorkload params.maxHoursPerDriver drivers = none ∧
      processOrder drivers params rng st o = st) ∨
    ∃ d, pickDriver st.driverWorkload params.maxHoursPerDriver drivers = some d ∧
      (processOrder drivers params rng st o).assignments =
        st.assignments ++ [buildAssignment d o (rng st.assignments.length)] := by
  cases h : pickDriver st.driverWorkload params.maxHoursPerDriver drivers with
  | none => exact Or.inl ⟨rfl, by simp [processOrder, h]⟩
  | some d => exact Or.inr ⟨d, rfl, by simp [processOrder, h]⟩


/-- The loop only pushes assignments: the final list extends the initial one,
growing by at most one assignment per processed order. -/
theorem foldl_assignments_extend (drivers : List Driver) (params : SimulationParams)
    (rng : ℕ → ℚ) (l : List Order) (st : AssignState) :
    ∃ t : List DeliveryAssignment,
      (l.foldl (processOrder drivers params rng) st).assignments =
        st.assignments ++ t ∧ t.length ≤ l.length := by
  induction l generalizing st with
  | nil => exact ⟨[], by simp, by simp⟩
  | cons o l ih =>
      obtain ⟨t, ht, hlen⟩ := ih (processOrder drivers params rng st o)
      rcases processOrder_cases drivers params rng st o with ⟨-, he⟩ | ⟨d, -, he⟩
      · exact ⟨t, by rw [List.foldl_cons, ht, he], hlen.trans (Nat.le_succ _)⟩
      · refine ⟨buildAssignment d o (rng st.assignments.length) :: t, ?_, ?_⟩
        · rw [List.foldl_cons, ht, he, List.append_assoc]
          rfl
        · simpa using Nat.succ_le_succ hlen

/-- Every produced assignment was built by `buildAssignment` from a driver of
the pool, an order of the processed list, and some random draw. -/
theorem foldl_assignments_provenance (drivers : List Driver)
    (params : SimulationParams) (rng : ℕ → ℚ) (l : List Order) (st : AssignState) :
    ∀ a ∈ (l.foldl (processOrder drivers params rng) st).assignments,
      a ∈ st.assignments ∨
        ∃ d ∈ drivers, ∃ o ∈ l, ∃ k, a = buildAssignment d o (rng k) := by
  induction l generalizing st with
  | nil => exact fun a ha => Or.inl ha
  | cons o l ih =>
      intro a ha
      rw [List.foldl_cons] at ha
      rcases ih (processOrder drivers params rng st o) a ha with hmem |
        ⟨d, hd, o', ho', k, he⟩
      · rcases processOrder_cases drivers params rng st o with ⟨-, he⟩ | ⟨d, hpick, he⟩
        · rw [he] at hmem
          exact Or.inl hmem
        · rw [he] at hmem
          rcases List.mem_append.mp hmem with h1 | h2
          · exact Or.inl h1
          · have h3 : a = buildAssignment d o (rng st.assignments.length) := by
              simpa using h2
            exact Or.inr ⟨d, (pickDriver_some_spec _ _ _ _ hpick).1, o,
              List.mem_cons_self o l, _, h3⟩
      · exact Or.inr ⟨d, hd, o', List.mem_cons_of_mem o ho', k, he⟩

/-- The order and driver of the first produced assignment do not depend on the
random stream: until the first assignment the state carries no randomness, and
the very first pick happens before any draw is consumed. -/
theorem foldl_first_assignment_rng_free (drivers : List Driver)
    (params : SimulationParams) (rng1 rng2 : ℕ → ℚ) (l : List Order)
    (wl : Nat → ℚ) :
    ((l.foldl (processOrder drivers params rng1)
        ⟨[], wl⟩).assignments.head?.map (fun a => (a.orderId, a.driverId))) =
    ((l.foldl (processOrder drivers params rng2)
        ⟨[], wl⟩).assignments.head?.map (fun a => (a.orderId, a.driverId))) := by
  induction l generalizing wl with
  | nil => rfl
  | cons o l ih =>
      rw [List.foldl_cons, List.foldl_cons]
      cases hpick : pickDriver wl params.maxHoursPerDriver drivers with
      | none =>
          have e1 : processOrder drivers params rng1 ⟨[], wl⟩ o = ⟨[], wl⟩ := by
            simp [processOrder, hpick]
          have e2 : processOrder drivers params rng2 ⟨[], wl⟩ o = ⟨[], wl⟩ := by
            simp [processOrder, hpick]
          rw [e1, e2]
          exact ih wl
      | some d =>
          obtain ⟨t1, ht1, -⟩ := foldl_assignments_extend drivers params rng1 l
            (processOrder drivers params rng1 ⟨[], wl⟩ o)
          obtain ⟨t2, ht2, -⟩ := foldl_assignments_extend drivers params rng2 l
            (processOrder drivers params rng2 ⟨[], wl⟩ o)
          have ha1 : (processOrder drivers params rng1 ⟨[], wl⟩ o).assignments =
              [buildAssignment d o (rng1 0)] := by simp [processOrder, hpick]
          have ha2 : (processOrder drivers params rng2 ⟨[], wl⟩ o).assignments =
              [buildAssignment d o (rng2 0)] := by simp [processOrder, hpick]
          rw [ht1, ht2, ha1, ha2]
          rfl

/-!
## Lemmas about `calculateResults`
-/

/-- Closed form of the `calculateResults` accumulator loop: total profit is the
initial value plus the sum of per-assignment profits, the on-time and late
counters count the respective assignments, and the two fuel accumulators are
the 70% and 30% shares of the summed fuel costs. -/
theorem foldl_resultStep_spec (l : List DeliveryAssignment) (acc : ResultAcc) :
    (l.foldl resultStep acc).totalProfit = acc.totalProfit +
        (l.map (fun a => a.orderValue + a.bonus - a.penalty - a.fuelCost)).sum ∧
    (l.foldl resultStep acc).onTimeDeliveries = acc.onTimeDeliveries +
        (l.filter (fun a => a.isOnTime)).length ∧
    (l.foldl resultStep acc).lateDeliveries = acc.lateDeliveries +
        (l.filter (fun a => !a.isOnTime)).length ∧
    (l.foldl resultStep acc).totalBaseFuelCost = acc.totalBaseFuelCost +
        (7/10) * (l.map (fun a => a.fuelCost)).sum ∧
    (l.foldl resultStep acc).totalTrafficSurcharge = acc.totalTrafficSurcharge +
        (3/10) * (l.map (fun a => a.fuelCost)).sum := by
  induction l generalizing acc with
  | nil => simp
  | cons a l ih =>
      obtain ⟨h1, h2, h3, h4, h5⟩ := ih (resultStep acc a)
      rw [List.foldl_cons]
      refine ⟨?_, ?_, ?_, ?_, ?_⟩
      · rw [h1]; simp only [resultStep, List.map_cons, List.sum_cons]; ring
      · rw [h2]
        cases hb : a.isOnTime <;> simp [resultStep, List.filter_cons, hb] <;> omega
      · rw [h3]
        cases hb : a.isOnTime <;> simp [resultStep, List.filter_cons, hb] <;> omega
      · rw [h4]; simp only [resultStep, List.map_cons, List.sum_cons]; ring
      · rw [h5]; simp only [resultStep, List.map_cons, List.sum_cons]; ring

/-- Partition of a list's length by a Boolean predicate. -/
theorem length_filter_add_length_not {α : Type*} (p : α → Bool) (l : List α) :
    (l.filter p).length + (l.filter (fun a => !p a)).length = l.length := by
  induction l with
  | nil => rfl
  | cons a l ih =>
      by_cases hb : p a <;> simp [List.filter_cons, hb] <;> omega

/-!
## Rounding lemmas
-/

/-- `Math.round` is almost additive: rounding two summands separately differs
from rounding their sum by at most one unit in the last place. -/
theorem jsRound_subadd (x y : ℚ) :
    jsRound x + jsRound y - jsRound (x + y) ≤ 1 ∧
      -1 ≤ jsRound x + jsRound y - jsRound (x + y) := by
  unfold jsRound
  constructor
  · have h1 : (((⌊x + 1/2⌋ + ⌊y + 1/2⌋ - 1 : ℤ) : ℚ)) ≤ x + y + 1/2 := by
      push_cast
      have hx := Int.floor_le (x + 1/2)
      have hy := Int.floor_le (y + 1/2)
      linarith
    have h2 := Int.le_floor.mpr h1
    omega
  · have h1 : x + y + 1/2 < (((⌊x + 1/2⌋ + ⌊y + 1/2⌋ + 2 : ℤ) : ℚ)) := by
      push_cast
      have hx := Int.lt_floor_add_one (x + 1/2)
      have hy := Int.lt_floor_add_one (y + 1/2)
      linarith
    have h2 := Int.floor_lt.mpr h1
    omega

/-- Rounding to one decimal place keeps a value of [0, 100] inside [0, 100]. -/
theorem round1_mem_Icc (q : ℚ) (h0 : 0 ≤ q) (h1 : q ≤ 100) :
    0 ≤ round1 q ∧ round1 q ≤ 100 := by
  unfold round1 jsRound
  constructor
  · have h2 : (0 : ℤ) ≤ ⌊q * 10 + 1/2⌋ := Int.le_floor.mpr (by push_cast; linarith)
    exact div_nonneg (by exact_mod_cast h2) (by norm_num)
  · have h2 : ⌊q * 10 + 1/2⌋ ≤ 1000 := by
      have h3 : q * 10 + 1/2 < ((1000 + 1 : ℤ) : ℚ) := by push_cast; linarith
      have h4 := Int.floor_lt.mpr h3
      omega
    rw [div_le_iff (by norm_num : (0:ℚ) < 10)]
    calc ((⌊q * 10 + 1/2⌋ : ℚ)) ≤ (1000 : ℚ) := by exact_mod_cast h2
      _ = 100 * 10 := by norm_num

/-- `runSimulation` returns `ok` exactly on `calculateResults` of the produced
assignments, and only when all three pools are non-empty. -/
theorem runSimulation_ok_iff (drivers : List Driver) (routes : List Route)
    (orders : List Order) (params : SimulationParams) (rng : ℕ → ℚ)
    (res : SimulationResult) :
    runSimulation drivers routes orders params rng = Except.ok res ↔
      (drivers ≠ [] ∧ routes ≠ [] ∧ filterEligible orders ≠ [] ∧
        res = calculateResults
          (assignDeliveries drivers (filterEligible orders) params rng)) := by
  unfold runSimulation
  by_cases h : drivers.length = 0 ∨ routes.length = 0 ∨ (filterEligible orders).length = 0
  · rw [if_pos h]
    simp only [List.length_eq_zero] at h
    constructor
    · intro he; cases he
    · rintro ⟨h1, h2, h3, -⟩
      rcases h with h | h | h
      · exact absurd h h1
      · exact absurd h h2
      · exact absurd h h3
  · rw [if_neg h]
    push_neg at h
    simp only [ne_eq, List.length_eq_zero] at h
    constructor
    · intro he
      exact ⟨h.1, h.2.1, h.2.2, (Except.ok.inj he).symm⟩
    · rintro ⟨-, -, -, hres⟩
      rw [hres]

/-- Every assignment produced by `assignDeliveries` was built by
`buildAssignment` from a pool driver, an input order, and some random draw. -/
theorem assignDeliveries_mem_build (drivers : List Driver) (orders : List Order)
    (params : SimulationParams) (rng : ℕ → ℚ) :
    ∀ a ∈ assignDeliveries drivers orders params rng,
      ∃ d ∈ drivers, ∃ o ∈ orders, ∃ k, a = buildAssignment d o (rng k) := by
  intro a ha
  unfold assignDeliveries assignFold at ha
  rcases foldl_assignments_provenance drivers params rng _ _ a ha with h |
    ⟨d, hd, o, ho, k, he⟩
  · exact absurd h (List.not_mem_nil a)
  · exact ⟨d, hd, o, (List.perm_insertionSort ordValueGE orders).mem_iff.mp ho, k, he⟩

/-- Closed form of the estimated delivery time: base time, times the fatigue
factor (1.3 above 56 past-week hours), times the traffic factor. -/
theorem estimatedDeliveryTimeFor_closed (d : Driver) (rt : Route) :
    estimatedDeliveryTimeFor d rt =
      rt.baseTimeMinutes * (if 56 < d.pastWeekHours then (13/10 : ℚ) else 1) *
        (match rt.trafficLevel with
         | TrafficLevel.High => (15/10 : ℚ)
         | TrafficLevel.Medium => (12/10 : ℚ)
         | TrafficLevel.Low => 1) := by
  unfold estimatedDeliveryTimeFor
  rw [show (8 * 7 : ℚ) = 56 by norm_num]
  by_cases h : 56 < d.pastWeekHours <;>
    cases rt.trafficLevel <;> simp [h] <;> ring

/-- Rounding zero to one decimal place gives zero. -/
theorem round1_zero : round1 0 = 0 := by
  norm_num [round1, jsRound]

/-!
## The claims
-/

/-- C1: the assignment loop processes exactly the Pending/In-Progress orders,
sorted descending by `valueRs` with a stable tie-break (input order preserved
among equal values); for each order it assigns the driver whose accumulated
workload is strictly below `maxHoursPerDriver` and smallest among all such
drivers, ties broken stably by pool order; when no driver is below the cap the
order is skipped with no assignment and no error. -/
theorem assignment_loop_spec (drivers : List Driver) (orders : List Order)
    (params : SimulationParams) (rng : ℕ → ℚ) :
    (((filterEligible orders).insertionSort ordValueGE).Perm (filterEligible orders)) ∧
    (∀ o : Order, o ∈ filterEligible orders ↔ o ∈ orders ∧
      (o.status = OrderStatus.Pending ∨ o.status = OrderStatus.InProgress)) ∧
    (((filterEligible orders).insertionSort ordValueGE).Sorted
      (fun a b => b.valueRs ≤ a.valueRs)) ∧
    (∀ v : ℚ, ((filterEligible orders).insertionSort ordValueGE).filter
        (fun o => decide (o.valueRs = v)) =
      (filterEligible orders).filter (fun o => decide (o.valueRs = v))) ∧
    (assignDeliveries drivers (filterEligible orders) params rng =
      (((filterEligible orders).insertionSort ordValueGE).foldl
        (processOrder drivers params rng)
        { assignments := [], driverWorkload := initialWorkload drivers }).assignments) ∧
    (∀ (wl : Nat → ℚ) (d : Driver),
      pickDriver wl params.maxHoursPerDriver drivers = some d →
        d ∈ drivers ∧ wl d.id < params.maxHoursPerDriver ∧
        (∀ x ∈ drivers, wl x.id < params.maxHoursPerDriver → wl d.id ≤ wl x.id) ∧
        ∃ pre post, drivers = pre ++ d :: post ∧
          ∀ x ∈ pre, wl x.id < params.maxHoursPerDriver → wl d.id < wl x.id) ∧
    (∀ wl : Nat → ℚ, pickDriver wl params.maxHoursPerDriver drivers = none ↔
      ∀ x ∈ drivers, params.maxHoursPerDriver ≤ wl x.id) ∧
    (∀ (st : AssignState) (o : Order),
      pickDriver st.driverWorkload params.maxHoursPerDriver drivers = none →
        processOrder drivers params rng st o = st) := by
  refine ⟨List.perm_insertionSort ordValueGE _, ?_, ?_, ?_, rfl, ?_, ?_, ?_⟩
  · intro o
    simp [filterEligible, isEligibleStatus]
  · exact List.sorted_insertionSort ordValueGE _
  · intro v
    refine filter_insertionSort_stable ordValueGE _ ?_ _
    intro a b ha hb
    rw [decide_eq_true_eq] at ha hb
    unfold ordValueGE
    rw [ha, hb]
  · exact fun wl d h => pickDriver_some_spec wl params.maxHoursPerDriver drivers d h
  · exact fun wl => pickDriver_none_iff wl params.maxHoursPerDriver drivers
  · intro st o h
    simp [processOrder, h]

/-- C1 witness: on the one-driver, one-order sample the driver pick succeeds,
is below the cap, minimal, and stably first. -/
theorem assignment_loop_spec_witness :
    pickDriver (initialWorkload [sampleDriver]) sampleParams.maxHoursPerDriver
        [sampleDriver] = some sampleDriver ∧
      (sampleDriver ∈ [sampleDriver] ∧
        initialWorkload [sampleDriver] sampleDriver.id < sampleParams.maxHoursPerDriver ∧
        (∀ x ∈ [sampleDriver],
          initialWorkload [sampleDriver] x.id < sampleParams.maxHoursPerDriver →
            initialWorkload [sampleDriver] sampleDriver.id ≤
              initialWorkload [sampleDriver] x.id) ∧
        ∃ pre post, [sampleDriver] = pre ++ sampleDriver :: post ∧
          ∀ x ∈ pre,
            initialWorkload [sampleDriver] x.id < sampleParams.maxHoursPerDriver →
              initialWorkload [sampleDriver] sampleDriver.id <
                initialWorkload [sampleDriver] x.id) :=
  ⟨by norm_num [pickDriver, initialWorkload, sampleDriver, sampleParams, driverLE,
      List.insertionSort, List.orderedInsert],
    (assignment_loop_spec [sampleDriver] [sampleOrder] sampleParams sampleRng).2.2.2.2.2.1
      (initialWorkload [sampleDriver]) sampleDriver
      (by norm_num [pickDriver, initialWorkload, sampleDriver, sampleParams, driverLE,
        List.insertionSort, List.orderedInsert])⟩

/-- C2: every assignment's estimated delivery time is the route's
`baseTimeMinutes`, times 1.3 exactly when the chosen driver's `pastWeekHours`
exceeds 56, times 1.5 for High traffic, 1.2 for Medium, 1.0 for Low; a driver
with 60 past-week hours on a High-traffic, 40-minute route estimates 78. -/
theorem estimated_time_spec (drivers : List Driver) (orders : List Order)
    (params : SimulationParams) (rng : ℕ → ℚ) :
    (∀ a ∈ assignDeliveries drivers orders params rng,
      ∃ d ∈ drivers, ∃ o ∈ orders, a.driverId = d.id ∧ a.orderId = o.id ∧
        a.estimatedDeliveryTime =
          o.route.baseTimeMinutes *
            (if 56 < d.pastWeekHours then (13/10 : ℚ) else 1) *
            (match o.route.trafficLevel with
             | TrafficLevel.High => (15/10 : ℚ)
             | TrafficLevel.Medium => (12/10 : ℚ)
             | TrafficLevel.Low => 1)) ∧
    (∀ (i j : Nat) (s km : ℚ),
      estimatedDeliveryTimeFor ⟨i, s, 60⟩ ⟨j, km, TrafficLevel.High, 40⟩ = 78) := by
  constructor
  · intro a ha
    obtain ⟨d, hd, o, ho, k, he⟩ := assignDeliveries_mem_build drivers orders params rng a ha
    subst he
    exact ⟨d, hd, o, ho, rfl, rfl, estimatedDeliveryTimeFor_closed d o.route⟩
  · intro i j s km
    norm_num [estimatedDeliveryTimeFor]

/-- C2 witness: the sample run produces the sample assignment, whose estimate
follows the closed fatigue-and-traffic formula (40 × 1.3 × 1.5 = 78). -/
theorem estimated_time_spec_witness :
    buildAssignment sampleDriver sampleOrder (sampleRng 0) ∈
        assignDeliveries [sampleDriver] [sampleOrder] sampleParams sampleRng ∧
      (∃ d ∈ [sampleDriver], ∃ o ∈ [sampleOrder],
        (buildAssignment sampleDriver sampleOrder (sampleRng 0)).driverId = d.id ∧
        (buildAssignment sampleDriver sampleOrder (sampleRng 0)).orderId = o.id ∧
        (buildAssignment sampleDriver sampleOrder (sampleRng 0)).estimatedDeliveryTime =
          o.route.baseTimeMinutes *
            (if 56 < d.pastWeekHours then (13/10 : ℚ) else 1) *
            (match o.route.trafficLevel with
             | TrafficLevel.High => (15/10 : ℚ)
             | TrafficLevel.Medium => (12/10 : ℚ)
             | TrafficLevel.Low => 1)) :=
  ⟨by norm_num [assignDeliveries, assignFold, processOrder, pickDriver, initialWorkload,
      driverLE, List.insertionSort, List.orderedInsert, ordValueGE,
      sampleDriver, sampleOrder, sampleParams, sampleRng, sampleRoute],
    (estimated_time_spec [sampleDriver] [sampleOrder] sampleParams sampleRng).1 _
      (by norm_num [assignDeliveries, assignFold, processOrder, pickDriver, initialWorkload,
        driverLE, List.insertionSort, List.orderedInsert, ordValueGE,
        sampleDriver, sampleOrder, sampleParams, sampleRng, sampleRoute])⟩

/-- C3: for every assignment, `isOnTime` holds iff the randomly perturbed,
integer-rounded actual time is at most the route's unmodified
`baseTimeMinutes` plus 10 — not the fatigue- or traffic-adjusted estimate. -/
theorem on_time_threshold_spec (drivers : List Driver) (orders : List Order)
    (params : SimulationParams) (rng : ℕ → ℚ) :
    ∀ a ∈ assignDeliveries drivers orders params rng,
      ∃ o ∈ orders, a.orderId = o.id ∧
        (∃ k, a.actualDeliveryTime =
          simulateActualDeliveryTime (rng k) a.estimatedDeliveryTime) ∧
        (a.isOnTime = true ↔ (a.actualDeliveryTime : ℚ) ≤ o.route.baseTimeMinutes + 10) := by
  intro a ha
  obtain ⟨d, -, o, ho, k, he⟩ := assignDeliveries_mem_build drivers orders params rng a ha
  subst he
  exact ⟨o, ho, rfl, ⟨k, rfl⟩, decide_eq_true_iff⟩

/-- C3 witness: the sample assignment (actual time 78, threshold 40 + 10) is
late, which matches the threshold characterization. -/
theorem on_time_threshold_spec_witness :
    buildAssignment sampleDriver sampleOrder (sampleRng 0) ∈
        assignDeliveries [sampleDriver] [sampleOrder] sampleParams sampleRng ∧
      (∃ o ∈ [sampleOrder],
        (buildAssignment sampleDriver sampleOrder (sampleRng 0)).orderId = o.id ∧
        (∃ k, (buildAssignment sampleDriver sampleOrder (sampleRng 0)).actualDeliveryTime =
          simulateActualDeliveryTime (sampleRng k)
            (buildAssignment sampleDriver sampleOrder (sampleRng 0)).estimatedDeliveryTime) ∧
        ((buildAssignment sampleDriver sampleOrder (sampleRng 0)).isOnTime = true ↔
          ((buildAssignment sampleDriver sampleOrder (sampleRng 0)).actualDeliveryTime : ℚ) ≤
            o.route.baseTimeMinutes + 10)) :=
  ⟨by norm_num [assignDeliveries, assignFold, processOrder, pickDriver, initialWorkload,
      driverLE, List.insertionSort, List.orderedInsert, ordValueGE,
      sampleDriver, sampleOrder, sampleParams, sampleRng, sampleRoute],
    on_time_threshold_spec [sampleDriver] [sampleOrder] sampleParams sampleRng _
      (by norm_num [assignDeliveries, assignFold, processOrder, pickDriver, initialWorkload,
        driverLE, List.insertionSort, List.orderedInsert, ordValueGE,
        sampleDriver, sampleOrder, sampleParams, sampleRng, sampleRoute])⟩

/-- C4: fuel cost is `distanceKm × 5` plus `distanceKm × 2` exactly for High
traffic (10 km: 70 High, 50 Low); penalty is 50 exactly when late, else 0;
bonus is 10% of the value exactly when the value exceeds 1000 and the delivery
is on time, else 0; bonus and penalty are never both nonzero. -/
theorem costs_bonus_penalty_spec (drivers : List Driver) (orders : List Order)
    (params : SimulationParams) (rng : ℕ → ℚ) :
    (∀ a ∈ assignDeliveries drivers orders params rng,
      ∃ o ∈ orders, a.orderId = o.id ∧
        a.fuelCost = o.route.distanceKm * 5 +
          (if o.route.trafficLevel = TrafficLevel.High then o.route.distanceKm * 2 else 0) ∧
        a.penalty = (if a.isOnTime then (0 : ℚ) else 50) ∧
        a.bonus =
          (if 1000 < a.orderValue ∧ a.isOnTime = true then a.orderValue * (1/10) else 0) ∧
        (a.bonus = 0 ∨ a.penalty = 0)) ∧
    (∀ (i : Nat) (b : ℚ), calculateFuelCost ⟨i, 10, TrafficLevel.High, b⟩ = 70) ∧
    (∀ (i : Nat) (b : ℚ), calculateFuelCost ⟨i, 10, TrafficLevel.Low, b⟩ = 50) := by
  refine ⟨?_, ?_, ?_⟩
  · intro a ha
    obtain ⟨d, -, o, ho, k, he⟩ := assignDeliveries_mem_build drivers orders params rng a ha
    subst he
    refine ⟨o, ho, rfl, rfl, rfl, rfl, ?_⟩
    by_cases hb : (buildAssignment d o (rng k)).isOnTime = true
    · right
      show (if (buildAssignment d o (rng k)).isOnTime then (0 : ℚ) else 50) = 0
      rw [if_pos hb]
    · left
      show calculateBonus o.valueRs (buildAssignment d o (rng k)).isOnTime = 0
      unfold calculateBonus
      rw [if_neg (fun hand => hb hand.2)]
  · intro i b
    norm_num [calculateFuelCost]
  · intro i b
    norm_num [calculateFuelCost]
    decide

/-- C4 witness: the sample assignment is late on a High-traffic 10 km route:
fuel cost 70, penalty 50, bonus 0. -/
theorem costs_bonus_penalty_spec_witness :
    buildAssignment sampleDriver sampleOrder (sampleRng 0) ∈
        assignDeliveries [sampleDriver] [sampleOrder] sampleParams sampleRng ∧
      (∃ o ∈ [sampleOrder],
        (buildAssignment sampleDriver sampleOrder (sampleRng 0)).orderId = o.id ∧
        (buildAssignment sampleDriver sampleOrder (sampleRng 0)).fuelCost =
          o.route.distanceKm * 5 +
            (if o.route.trafficLevel = TrafficLevel.High then o.route.distanceKm * 2 else 0) ∧
        (buildAssignment sampleDriver sampleOrder (sampleRng 0)).penalty =
          (if (buildAssignment sampleDriver sampleOrder (sampleRng 0)).isOnTime
            then (0 : ℚ) else 50) ∧
        (buildAssignment sampleDriver sampleOrder (sampleRng 0)).bonus =
          (if 1000 < (buildAssignment sampleDriver sampleOrder (sampleRng 0)).orderValue ∧
              (buildAssignment sampleDriver sampleOrder (sampleRng 0)).isOnTime = true
            then (buildAssignment sampleDriver sampleOrder (sampleRng 0)).orderValue * (1/10)
            else 0) ∧
        ((buildAssignment sampleDriver sampleOrder (sampleRng 0)).bonus = 0 ∨
          (buildAssignment sampleDriver sampleOrder (sampleRng 0)).penalty = 0)) :=
  ⟨by norm_num [assignDeliveries, assignFold, processOrder, pickDriver, initialWorkload,
      driverLE, List.insertionSort, List.orderedInsert, ordValueGE,
      sampleDriver, sampleOrder, sampleParams, sampleRng, sampleRoute],
    (costs_bonus_penalty_spec [sampleDriver] [sampleOrder] sampleParams sampleRng).1 _
      (by norm_num [assignDeliveries, assignFold, processOrder, pickDriver, initialWorkload,
        driverLE, List.insertionSort, List.orderedInsert, ordValueGE,
        sampleDriver, sampleOrder, sampleParams, sampleRng, sampleRoute])⟩

/-- C5: the run's total profit is the 2-decimal rounding of the summed
per-assignment profits (value + bonus − penalty − fuel cost), and the on-time
and late counters partition the produced assignments, which never outnumber
the eligible orders. -/
theorem totals_spec (drivers : List Driver) (routes : List Route)
    (orders : List Order) (params : SimulationParams) (rng : ℕ → ℚ)
    (res : SimulationResult)
    (h : runSimulation drivers routes orders params rng = Except.ok res) :
    res.totalProfit = round2
      (((assignDeliveries drivers (filterEligible orders) params rng).map
        (fun a => a.orderValue + a.bonus - a.penalty - a.fuelCost)).sum) ∧
    res.onTimeDeliveries + res.lateDeliveries =
      (assignDeliveries drivers (filterEligible orders) params rng).length ∧
    (assignDeliveries drivers (filterEligible orders) params rng).length ≤
      (filterEligible orders).length := by
  obtain ⟨-, -, -, hres⟩ :=
    (runSimulation_ok_iff drivers routes orders params rng res).mp h
  subst hres
  obtain ⟨h1, h2, h3, -, -⟩ := foldl_resultStep_spec
    (assignDeliveries drivers (filterEligible orders) params rng) ⟨0, 0, 0, 0, 0⟩
  refine ⟨?_, ?_, ?_⟩
  · show round2 (((assignDeliveries drivers (filterEligible orders) params rng).foldl
      resultStep ⟨0, 0, 0, 0, 0⟩).totalProfit) = _
    rw [h1, zero_add]
  · show ((assignDeliveries drivers (filterEligible orders) params rng).foldl
        resultStep ⟨0, 0, 0, 0, 0⟩).onTimeDeliveries +
      ((assignDeliveries drivers (filterEligible orders) params rng).foldl
        resultStep ⟨0, 0, 0, 0, 0⟩).lateDeliveries = _
    rw [h2, h3, Nat.zero_add, Nat.zero_add]
    exact length_filter_add_length_not _ _
  · show (assignFold drivers (filterEligible orders) params rng).assignments.length ≤ _
    unfold assignFold
    obtain ⟨t, ht, hlen⟩ := foldl_assignments_extend drivers params rng
      ((filterEligible orders).insertionSort ordValueGE)
      ⟨[], initialWorkload drivers⟩
    rw [ht]
    simpa [List.length_insertionSort] using hlen

/-- C5 witness: on the concrete one-order sample run the profit, partition and
length bound hold. -/
theorem totals_spec_witness :
    runSimulation [sampleDriver] [sampleRoute] [sampleOrder] sampleParams sampleRng =
      Except.ok (calculateResults (assignDeliveries [sampleDriver]
        (filterEligible [sampleOrder]) sampleParams sampleRng)) ∧
    ((calculateResults (assignDeliveries [sampleDriver]
        (filterEligible [sampleOrder]) sampleParams sampleRng)).totalProfit = round2
      (((assignDeliveries [sampleDriver] (filterEligible [sampleOrder]) sampleParams
        sampleRng).map (fun a => a.orderValue + a.bonus - a.penalty - a.fuelCost)).sum) ∧
    (calculateResults (assignDeliveries [sampleDriver]
        (filterEligible [sampleOrder]) sampleParams sampleRng)).onTimeDeliveries +
      (calculateResults (assignDeliveries [sampleDriver]
        (filterEligible [sampleOrder]) sampleParams sampleRng)).lateDeliveries =
      (assignDeliveries [sampleDriver] (filterEligible [sampleOrder]) sampleParams
        sampleRng).length ∧
    (assignDeliveries [sampleDriver] (filterEligible [sampleOrder]) sampleParams
        sampleRng).length ≤ (filterEligible [sampleOrder]).length) :=
  ⟨rfl, totals_spec [sampleDriver] [sampleRoute] [sampleOrder] sampleParams sampleRng _ rfl⟩

/-- C6 (amended): the efficiency score is the 1-decimal rounding of the
on-time percentage when at least one assignment exists and 0 otherwise; it
always lies in [0, 100]; it is 0 whenever no assignments were produced — but
it is also 0 when assignments exist and none of them is on time, so "0 exactly
when no assignments" fails. -/
theorem efficiency_amended (drivers : List Driver) (routes : List Route)
    (orders : List Order) (params : SimulationParams) (rng : ℕ → ℚ)
    (res : SimulationResult)
    (h : runSimulation drivers routes orders params rng = Except.ok res) :
    (res.efficiencyScore =
      if 0 < res.onTimeDeliveries + res.lateDeliveries then
        round1 (((res.onTimeDeliveries : ℚ) /
          (((res.onTimeDeliveries + res.lateDeliveries : ℕ) : ℚ))) * 100)
      else 0) ∧
    0 ≤ res.efficiencyScore ∧ res.efficiencyScore ≤ 100 ∧
    (res.onTimeDeliveries + res.lateDeliveries = 0 → res.efficiencyScore = 0) ∧
    (res.onTimeDeliveries = 0 → res.efficiencyScore = 0) := by
  obtain ⟨-, -, -, hres⟩ :=
    (runSimulation_ok_iff drivers routes orders params rng res).mp h
  subst hres
  set as := assignDeliveries drivers (filterEligible orders) params rng with has
  set acc := as.foldl resultStep ⟨0, 0, 0, 0, 0⟩ with hacc
  have hon : (calculateResults as).onTimeDeliveries = acc.onTimeDeliveries := rfl
  have hlate : (calculateResults as).lateDeliveries = acc.lateDeliveries := rfl
  have heff : (calculateResults as).efficiencyScore =
      round1 (if 0 < acc.onTimeDeliveries + acc.lateDeliveries then
        ((acc.onTimeDeliveries : ℚ) /
          (((acc.onTimeDeliveries + acc.lateDeliveries : ℕ) : ℚ))) * 100
      else 0) := rfl
  rw [heff, hon, hlate]
  by_cases hc : 0 < acc.onTimeDeliveries + acc.lateDeliveries
  · have h0 : (0 : ℚ) ≤ ((acc.onTimeDeliveries : ℚ) /
        (((acc.onTimeDeliveries + acc.lateDeliveries : ℕ) : ℚ))) * 100 := by
      positivity
    have h100 : ((acc.onTimeDeliveries : ℚ) /
        (((acc.onTimeDeliveries + acc.lateDeliveries : ℕ) : ℚ))) * 100 ≤ 100 := by
      have hpos : (0 : ℚ) < ((acc.onTimeDeliveries + acc.lateDeliveries : ℕ) : ℚ) := by
        exact_mod_cast hc
      have hle : (acc.onTimeDeliveries : ℚ) ≤
          ((acc.onTimeDeliveries + acc.lateDeliveries : ℕ) : ℚ) := by
        exact_mod_cast Nat.le_add_right _ _
      have hdiv : (acc.onTimeDeliveries : ℚ) /
          (((acc.onTimeDeliveries + acc.lateDeliveries : ℕ) : ℚ)) ≤ 1 :=
        (div_le_one hpos).mpr hle
      linarith
    obtain ⟨hlow, hhigh⟩ := round1_mem_Icc _ h0 h100
    rw [if_pos hc]
    refine ⟨(if_pos hc).symm, hlow, hhigh, ?_, ?_⟩
    · intro hzero
      exact absurd hzero (Nat.pos_iff_ne_zero.mp hc)
    · intro hzero
      rw [hzero]
      norm_num [round1_zero]
  · rw [if_neg hc]
    rw [round1_zero]
    exact ⟨(if_neg hc).symm, le_refl 0, by norm_num, fun _ => rfl, fun _ => rfl⟩

/-- C6 counterexample: a run producing exactly one (late) assignment has
efficiency score 0 although an assignment was produced, refuting "equals 0
exactly when no assignments were produced". -/
theorem efficiency_counterexample :
    ∃ res, runSimulation [sampleDriver] [sampleRoute] [sampleOrder] sampleParams
        sampleRng = Except.ok res ∧
      res.efficiencyScore = 0 ∧ 0 < res.onTimeDeliveries + res.lateDeliveries := by
  refine ⟨_, rfl, ?_, ?_⟩ <;>
    norm_num [runSimulation, filterEligible, isEligibleStatus, calculateResults,
      resultStep, assignDeliveries, assignFold, processOrder, pickDriver,
      initialWorkload, driverLE, List.insertionSort, List.orderedInsert, ordValueGE,
      buildAssignment, estimatedDeliveryTimeFor, simulateActualDeliveryTime, jsRound,
      calculateFuelCost, calculateBonus, round1, round2, sampleDriver, sampleOrder,
      sampleParams, sampleRng, sampleRoute]

/-- C6 witness: applying the amended statement to the sample run: its score is
0 via the rounded 0% on-time ratio of its single late assignment. -/
theorem efficiency_amended_witness :
    runSimulation [sampleDriver] [sampleRoute] [sampleOrder] sampleParams sampleRng =
      Except.ok (calculateResults (assignDeliveries [sampleDriver]
        (filterEligible [sampleOrder]) sampleParams sampleRng)) ∧
    ((calculateResults (assignDeliveries [sampleDriver]
        (filterEligible [sampleOrder]) sampleParams sampleRng)).efficiencyScore =
      if 0 < (calculateResults (assignDeliveries [sampleDriver]
          (filterEligible [sampleOrder]) sampleParams sampleRng)).onTimeDeliveries +
        (calculateResults (assignDeliveries [sampleDriver]
          (filterEligible [sampleOrder]) sampleParams sampleRng)).lateDeliveries then
        round1 ((((calculateResults (assignDeliveries [sampleDriver]
            (filterEligible [sampleOrder]) sampleParams sampleRng)).onTimeDeliveries : ℚ) /
          ((((calculateResults (assignDeliveries [sampleDriver]
            (filterEligible [sampleOrder]) sampleParams sampleRng)).onTimeDeliveries +
            (calculateResults (assignDeliveries [sampleDriver]
              (filterEligible [sampleOrder]) sampleParams sampleRng)).lateDeliveries : ℕ) : ℚ))) * 100)
      else 0) ∧
    0 ≤ (calculateResults (assignDeliveries [sampleDriver]
      (filterEligible [sampleOrder]) sampleParams sampleRng)).efficiencyScore ∧
    (calculateResults (assignDeliveries [sampleDriver]
      (filterEligible [sampleOrder]) sampleParams sampleRng)).efficiencyScore ≤ 100 :=
  ⟨rfl,
    (efficiency_amended [sampleDriver] [sampleRoute] [sampleOrder] sampleParams
      sampleRng _ rfl).1,
    (efficiency_amended [sampleDriver] [sampleRoute] [sampleOrder] sampleParams
      sampleRng _ rfl).2.1,
    (efficiency_amended [sampleDriver] [sampleRoute] [sampleOrder] sampleParams
      sampleRng _ rfl).2.2.1⟩

/-- C7: the reported fuel breakdown allocates 70% of the summed per-assignment
fuel costs to `baseCost` and 30% to `trafficSurcharge` (each rounded to 2
decimals) regardless of actual traffic levels, the reported total is the
rounded sum itself, and total agrees with baseCost + trafficSurcharge to
within one cent. -/
theorem fuel_breakdown_spec (drivers : List Driver) (routes : List Route)
    (orders : List Order) (params : SimulationParams) (rng : ℕ → ℚ)
    (res : SimulationResult)
    (h : runSimulation drivers routes orders params rng = Except.ok res) :
    res.fuelCostBreakdown.baseCost = round2 ((7/10) *
      (((assignDeliveries drivers (filterEligible orders) params rng).map
        (fun a => a.fuelCost)).sum)) ∧
    res.fuelCostBreakdown.trafficSurcharge = round2 ((3/10) *
      (((assignDeliveries drivers (filterEligible orders) params rng).map
        (fun a => a.fuelCost)).sum)) ∧
    res.fuelCostBreakdown.total = round2
      (((assignDeliveries drivers (filterEligible orders) params rng).map
        (fun a => a.fuelCost)).sum) ∧
    |res.fuelCostBreakdown.baseCost + res.fuelCostBreakdown.trafficSurcharge -
      res.fuelCostBreakdown.total| ≤ 1/100 := by
  obtain ⟨-, -, -, hres⟩ :=
    (runSimulation_ok_iff drivers routes orders params rng res).mp h
  subst hres
  set as := assignDeliveries drivers (filterEligible orders) params rng with has
  obtain ⟨-, -, -, h4, h5⟩ := foldl_resultStep_spec as ⟨0, 0, 0, 0, 0⟩
  have hbase : (calculateResults as).fuelCostBreakdown.baseCost =
      round2 ((as.foldl resultStep ⟨0, 0, 0, 0, 0⟩).totalBaseFuelCost) := rfl
  have hsur : (calculateResults as).fuelCostBreakdown.trafficSurcharge =
      round2 ((as.foldl resultStep ⟨0, 0, 0, 0, 0⟩).totalTrafficSurcharge) := rfl
  have htot : (calculateResults as).fuelCostBreakdown.total =
      round2 ((as.foldl resultStep ⟨0, 0, 0, 0, 0⟩).totalBaseFuelCost +
        (as.foldl resultStep ⟨0, 0, 0, 0, 0⟩).totalTrafficSurcharge) := rfl
  rw [hbase, hsur, htot, h4, h5, zero_add, zero_add]
  refine ⟨rfl, rfl, ?_, ?_⟩
  · rw [show (7/10 : ℚ) * (as.map (fun a => a.fuelCost)).sum +
      (3/10) * (as.map (fun a => a.fuelCost)).sum =
      (as.map (fun a => a.fuelCost)).sum by ring]
  · unfold round2
    rw [show ((7/10 : ℚ) * (as.map (fun a => a.fuelCost)).sum +
        (3/10) * (as.map (fun a => a.fuelCost)).sum) * 100 =
      ((7/10 : ℚ) * (as.map (fun a => a.fuelCost)).sum) * 100 +
        ((3/10) * (as.map (fun a => a.fuelCost)).sum) * 100 by ring]
    obtain ⟨hub, hlb⟩ := jsRound_subadd
      (((7/10 : ℚ) * (as.map (fun a => a.fuelCost)).sum) * 100)
      (((3/10 : ℚ) * (as.map (fun a => a.fuelCost)).sum) * 100)
    have hub' : ((jsRound (((7/10 : ℚ) * (as.map (fun a => a.fuelCost)).sum) * 100) +
        jsRound (((3/10 : ℚ) * (as.map (fun a => a.fuelCost)).sum) * 100) -
        jsRound (((7/10 : ℚ) * (as.map (fun a => a.fuelCost)).sum) * 100 +
          ((3/10 : ℚ) * (as.map (fun a => a.fuelCost)).sum) * 100) : ℤ) : ℚ) ≤ 1 := by
      exact_mod_cast hub
    have hlb' : (-1 : ℚ) ≤
        ((jsRound (((7/10 : ℚ) * (as.map (fun a => a.fuelCost)).sum) * 100) +
        jsRound (((3/10 : ℚ) * (as.map (fun a => a.fuelCost)).sum) * 100) -
        jsRound (((7/10 : ℚ) * (as.map (fun a => a.fuelCost)).sum) * 100 +
          ((3/10 : ℚ) * (as.map (fun a => a.fuelCost)).sum) * 100) : ℤ) : ℚ) := by
      exact_mod_cast hlb
    push_cast at hub' hlb'
    rw [abs_le]
    constructor <;> linarith

/-- C7 witness: on the sample run (one High-traffic assignment, fuel cost 70)
the breakdown is 49 / 21 / 70 and the parts match the total within a cent. -/
theorem fuel_breakdown_spec_witness :
    runSimulation [sampleDriver] [sampleRoute] [sampleOrder] sampleParams sampleRng =
      Except.ok (calculateResults (assignDeliveries [sampleDriver]
        (filterEligible [sampleOrder]) sampleParams sampleRng)) ∧
    ((calculateResults (assignDeliveries [sampleDriver]
        (filterEligible [sampleOrder]) sampleParams sampleRng)).fuelCostBreakdown.baseCost =
      round2 ((7/10) * (((assignDeliveries [sampleDriver] (filterEligible [sampleOrder])
        sampleParams sampleRng).map (fun a => a.fuelCost)).sum)) ∧
    (calculateResults (assignDeliveries [sampleDriver]
        (filterEligible [sampleOrder]) sampleParams sampleRng)).fuelCostBreakdown.trafficSurcharge =
      round2 ((3/10) * (((assignDeliveries [sampleDriver] (filterEligible [sampleOrder])
        sampleParams sampleRng).map (fun a => a.fuelCost)).sum)) ∧
    (calculateResults (assignDeliveries [sampleDriver]
        (filterEligible [sampleOrder]) sampleParams sampleRng)).fuelCostBreakdown.total =
      round2 (((assignDeliveries [sampleDriver] (filterEligible [sampleOrder])
        sampleParams sampleRng).map (fun a => a.fuelCost)).sum) ∧
    |(calculateResults (assignDeliveries [sampleDriver]
        (filterEligible [sampleOrder]) sampleParams sampleRng)).fuelCostBreakdown.baseCost +
      (calculateResults (assignDeliveries [sampleDriver]
        (filterEligible [sampleOrder]) sampleParams sampleRng)).fuelCostBreakdown.trafficSurcharge -
      (calculateResults (assignDeliveries [sampleDriver]
        (filterEligible [sampleOrder]) sampleParams sampleRng)).fuelCostBreakdown.total| ≤ 1/100) :=
  ⟨rfl, fuel_breakdown_spec [sampleDriver] [sampleRoute] [sampleOrder] sampleParams
    sampleRng _ rfl⟩

/-- C8 (amended): two runs on identical inputs that differ only in the random
draws agree on the order and driver of the first produced assignment (the
first pick happens before any randomness is consumed); later driver
selections, and which orders get assigned at all, may depend on the draws,
because each assignment adds its randomly perturbed actual time to the chosen
driver's workload. -/
theorem determinism_amended (drivers : List Driver) (orders : List Order)
    (params : SimulationParams) (rng1 rng2 : ℕ → ℚ) :
    ((assignDeliveries drivers orders params rng1).head?.map
      (fun a => (a.orderId, a.driverId))) =
    ((assignDeliveries drivers orders params rng2).head?.map
      (fun a => (a.orderId, a.driverId))) := by
  unfold assignDeliveries assignFold
  exact foldl_first_assignment_rng_free drivers params rng1 rng2 _ _

/-- C8 counterexample: on the two-driver, two-order input the two random
streams produce the same assigned-order sequence but different driver
selections for the second order — the chatter of the first actual delivery
time pushes driver 1 above or below driver 2's workload. -/
theorem determinism_counterexample :
    ((assignDeliveries [cexDriver1, cexDriver2] [cexOrder1, cexOrder2] cexParams
        (fun _ => 0)).map (fun a => a.orderId)) =
      ((assignDeliveries [cexDriver1, cexDriver2] [cexOrder1, cexOrder2] cexParams
        (fun _ => 99/100)).map (fun a => a.orderId)) ∧
    ((assignDeliveries [cexDriver1, cexDriver2] [cexOrder1, cexOrder2] cexParams
        (fun _ => 0)).map (fun a => a.driverId)) = [1, 1] ∧
    ((assignDeliveries [cexDriver1, cexDriver2] [cexOrder1, cexOrder2] cexParams
        (fun _ => 99/100)).map (fun a => a.driverId)) = [1, 2] := by
  refine ⟨?_, ?_, ?_⟩ <;>
    norm_num [assignDeliveries, assignFold, processOrder, pickDriver, buildAssignment,
      initialWorkload, estimatedDeliveryTimeFor, simulateActualDeliveryTime, jsRound,
      calculateFuelCost, calculateBonus, ordValueGE, driverLE,
      List.insertionSort, List.orderedInsert, cexDriver1, cexDriver2, cexOrder1,
      cexOrder2, cexParams, cexRoute]

/-- C9: the run fails with the insufficient-data error exactly when the driver
pool, the route catalog, or the status-filtered order pool is empty; that is
the only error; and on failure no result is produced. -/
theorem insufficient_data_spec (drivers : List Driver) (routes : List Route)
    (orders : List Order) (params : SimulationParams) (rng : ℕ → ℚ) :
    (runSimulation drivers routes orders params rng =
        Except.error SimError.insufficientData ↔
      (drivers = [] ∨ routes = [] ∨ filterEligible orders = [])) ∧
    (∀ e, runSimulation drivers routes orders params rng = Except.error e →
      e = SimError.insufficientData) ∧
    (runSimulation drivers routes orders params rng =
        Except.error SimError.insufficientData →
      ∀ res, runSimulation drivers routes orders params rng ≠ Except.ok res) := by
  refine ⟨?_, ?_, ?_⟩
  · unfold runSimulation
    by_cases h : drivers.length = 0 ∨ routes.length = 0 ∨
        (filterEligible orders).length = 0
    · rw [if_pos h]
      simp only [List.length_eq_zero] at h
      simp [h]
    · rw [if_neg h]
      push_neg at h
      simp only [ne_eq, List.length_eq_zero] at h
      constructor
      · intro he; cases he
      · rintro (h1 | h1 | h1)
        · exact absurd h1 h.1
        · exact absurd h1 h.2.1
        · exact absurd h1 h.2.2
  · intro e he
    cases e
    rfl
  · intro h1 res h2
    rw [h1] at h2
    cases h2

/-- C9 witness: with every pool empty the run errors out and produces no
result. -/
theorem insufficient_data_spec_witness :
    runSimulation ([] : List Driver) ([] : List Route) ([] : List Order)
        sampleParams sampleRng = Except.error SimError.insufficientData ∧
      (∀ res, runSimulation ([] : List Driver) ([] : List Route) ([] : List Order)
        sampleParams sampleRng ≠ Except.ok res) :=
  ⟨rfl,
    (insufficient_data_spec [] [] [] sampleParams sampleRng).2.2 rfl⟩

/-- C10: `maxHoursPerDriver` is only a pre-assignment check: whenever the pick
succeeds the chosen driver's accumulated workload is strictly below the cap,
and the step then adds `actualDeliveryTime / 60` unboundedly — concretely, a
0.9-hour driver under a 1-hour cap finishes the hour-long sample order with
1.9 accumulated hours, strictly above the cap. -/
theorem soft_cap_spec :
    (∀ (drivers : List Driver) (params : SimulationParams) (rng : ℕ → ℚ)
        (st : AssignState) (o : Order) (d : Driver),
      pickDriver st.driverWorkload params.maxHoursPerDriver drivers = some d →
        st.driverWorkload d.id < params.maxHoursPerDriver ∧
        (processOrder drivers params rng st o).assignments =
          st.assignments ++ [buildAssignment d o (rng st.assignments.length)] ∧
        (processOrder drivers params rng st o).driverWorkload d.id =
          st.driverWorkload d.id +
            ((buildAssignment d o (rng st.assignments.length)).actualDeliveryTime : ℚ) / 60) ∧
    softCapParams.maxHoursPerDriver <
      (assignFold [softCapDriver] [softCapOrder] softCapParams
        (fun _ => 1/2)).driverWorkload 1 := by
  constructor
  · intro drivers params rng st o d h
    refine ⟨(pickDriver_some_spec _ _ _ _ h).2.1, ?_, ?_⟩
    · simp [processOrder, h]
    · simp [processOrder, h]
  · norm_num [assignFold, processOrder, pickDriver, buildAssignment, initialWorkload,
      estimatedDeliveryTimeFor, simulateActualDeliveryTime, jsRound, calculateFuelCost,
      calculateBonus, ordValueGE, driverLE, List.insertionSort, List.orderedInsert,
      softCapDriver, softCapOrder, softCapParams, softCapRoute]

/-- C10 witness: the pre-assignment check holds on the soft-cap sample: the
0.9-hour driver is below the 1-hour cap when selected, and the step appends
the assignment and charges its actual time to the driver. -/
theorem soft_cap_spec_witness :
    pickDriver (initialWorkload [softCapDriver]) softCapParams.maxHoursPerDriver
        [softCapDriver] = some softCapDriver ∧
      (initialWorkload [softCapDriver] softCapDriver.id <
          softCapParams.maxHoursPerDriver ∧
        (processOrder [softCapDriver] softCapParams (fun _ => 1/2)
            ⟨[], initialWorkload [softCapDriver]⟩ softCapOrder).assignments =
          [] ++ [buildAssignment softCapDriver softCapOrder ((fun _ : ℕ => (1/2 : ℚ)) 0)] ∧
        (processOrder [softCapDriver] softCapParams (fun _ => 1/2)
            ⟨[], initialWorkload [softCapDriver]⟩ softCapOrder).driverWorkload
            softCapDriver.id =
          initialWorkload [softCapDriver] softCapDriver.id +
            ((buildAssignment softCapDriver softCapOrder
              ((fun _ : ℕ => (1/2 : ℚ)) 0)).actualDeliveryTime : ℚ) / 60) :=
  ⟨by norm_num [pickDriver, initialWorkload, softCapDriver, softCapParams, driverLE,
      List.insertionSort, List.orderedInsert],
    soft_cap_spec.1 [softCapDriver] softCapParams (fun _ => 1/2)
      ⟨[], initialWorkload [softCapDriver]⟩ softCapOrder softCapDriver
      (by norm_num [pickDriver, initialWorkload, softCapDriver, softCapParams, driverLE,
        List.insertionSort, List.orderedInsert])⟩

end GreenCart
